import Mathlib

/-!
Shallow embedding of the persistence layer of the PIM application
(`backend/database.py`, `backend/main.py` and the in-memory todo variant in
`main.py`).  Tables of the SQLite database become lists of rows, rows become
structures, and each Python method becomes a Lean function on the database
state.  SQLite specifics that the code relies on are modelled explicitly:

* `PRAGMA foreign_keys = ON` is issued on every connection, so every INSERT,
  UPDATE and DELETE checks the declared foreign keys.  A statement that
  violates a constraint raises `sqlite3.IntegrityError`; where the Python code
  catches it the operation returns its failure value with the state unchanged,
  where it does not catch it the exception propagates (modelled as a `none`
  result paired with the unchanged state, since the connection is closed
  without committing).
* `AUTOINCREMENT` ids are modelled with explicit `next_*` counters.
* `notes.folder_id` was added with `ALTER TABLE ADD COLUMN` and therefore has
  no foreign-key constraint (the schema comment in `_init_database` notes
  this), so arbitrary folder ids can be stored in it.
* `ON DELETE CASCADE` on `folders.parent_id` and on `note_tags` is modelled
  when rows are deleted.
* SQL `LIKE` is modelled with its real semantics: ASCII-case-insensitive
  matching where `%` matches any run of characters and `_` matches one
  character.
* `ORDER BY` is modelled with `List.insertionSort`, a stable sort; SQLite
  leaves the relative order of equal keys unspecified, which no claim relies
  on.
-/

namespace PIM

/-- A row of the `users` table (the password hash column is irrelevant to all
claims and is omitted). -/
structure User where
  id : Nat
  username : String
deriving Repr, DecidableEq

/-- A row of the `notes` table.  Timestamps are abstract `Nat` instants. -/
structure Note where
  id : Nat
  user_id : Nat
  title : String
  content : String
  created_at : Nat
  modified_at : Nat
  reminder_date : Option String
  folder_id : Option Nat
deriving Repr, DecidableEq

/-- A row of the `folders` table (the `created_at` column is irrelevant to all
claims and is omitted). -/
structure Folder where
  id : Nat
  user_id : Nat
  name : String
  parent_id : Option Nat
deriving Repr, DecidableEq

/-- A row of the `tags` table. -/
structure Tag where
  id : Nat
  name : String
deriving Repr, DecidableEq

/-- A row of the `todos` table. -/
structure Todo where
  id : Nat
  user_id : Nat
  title : String
  description : String
  due_date : Option String
  priority : String
  completed : Bool
  created_at : Nat
  note_id : Option Nat
deriving Repr, DecidableEq

/-- The state of the SQLite database: one list of rows per table (in rowid
order, which is insertion order for these tables), the `AUTOINCREMENT`
counters, and the current clock used for `CURRENT_TIMESTAMP` defaults.
The `reminders` table is untouched by every claim and is omitted. -/
structure DB where
  users : List User
  notes : List Note
  folders : List Folder
  tags : List Tag
  note_tags : List (Nat × Nat)
  todos : List Todo
  todo_tags : List (Nat × Nat)
  next_note_id : Nat
  next_folder_id : Nat
  next_tag_id : Nat
  next_todo_id : Nat
  now : Nat
deriving Repr, DecidableEq

/-- Python truthiness of an optional integer (`if not user_id`, `if note_id`,
`if pid`): `None` and `0` are falsy. -/
def truthy_nat : Option Nat → Bool
  | none => false
  | some n => n != 0

/-- Membership test for the `users` table, used for the foreign-key checks on
`user_id` columns. -/
def user_exists (db : DB) (uid : Nat) : Bool :=
  db.users.any (fun u => u.id == uid)

/-- `NoteDatabase.create_note`: INSERT INTO notes.  The UNIQUE(user_id, title)
constraint and the user foreign key are checked by SQLite; the Python code
catches `IntegrityError` and returns `None` with nothing committed.  There is
no constraint on `folder_id`. -/
def create_note (db : DB) (user_id : Nat) (title content : String)
    (folder_id : Option Nat) : Option Nat × DB :=
  if !user_exists db user_id
      || db.notes.any (fun n => n.user_id == user_id && n.title == title) then
    (none, db)
  else
    let nid := db.next_note_id
    (some nid,
      { db with
        notes := db.notes ++ [⟨nid, user_id, title, content, db.now, db.now, none, folder_id⟩],
        next_note_id := nid + 1 })

/-- `NoteDatabase.delete_note`: DELETE FROM notes WHERE user_id = ? AND
title = ?.  Each `note_tags` row of a deleted note is removed by ON DELETE
CASCADE.  The `todos.note_id` foreign key is declared with no ON DELETE
action, so if any todo references a matched note the DELETE statement raises
`sqlite3.IntegrityError`; the method does not catch it, the connection is
closed without committing, and no state change persists.  A raised exception
is modelled as a `none` first component. -/
def delete_note (db : DB) (user_id : Nat) (title : String) : Option Bool × DB :=
  let matched := db.notes.filter (fun n => n.user_id == user_id && n.title == title)
  if matched.any (fun n => db.todos.any (fun t => t.note_id == some n.id)) then
    (none, db)
  else
    let remaining := db.notes.filter (fun n => !(n.user_id == user_id && n.title == title))
    (some (!matched.isEmpty),
      { db with
        notes := remaining,
        note_tags := db.note_tags.filter (fun a => !(matched.any (fun n => n.id == a.1))) })

/-- `NoteDatabase.create_folder`: INSERT INTO folders.  The `user_id` and
`parent_id` foreign keys are checked by SQLite; the method has no exception
handler, so a violation raises `sqlite3.IntegrityError` (modelled as `none`)
and nothing is committed.  The parent existence check ignores the owner. -/
def create_folder (db : DB) (user_id : Nat) (name : String)
    (parent_id : Option Nat) : Option Nat × DB :=
  let parent_ok :=
    match parent_id with
    | none => true
    | some p => db.folders.any (fun g => g.id == p)
  if !user_exists db user_id || !parent_ok then
    (none, db)
  else
    let fid := db.next_folder_id
    (some fid,
      { db with
        folders := db.folders ++ [⟨fid, user_id, name, parent_id⟩],
        next_folder_id := fid + 1 })

/-- `NoteDatabase.move_folder`: the self-parent guard returns `False` before
touching the database; otherwise UPDATE folders SET parent_id = ? WHERE
id = ? AND user_id = ?.  If a row is updated to a `parent_id` that references
no folder, SQLite raises `sqlite3.IntegrityError` (uncaught, modelled as
`none`, nothing committed). -/
def move_folder (db : DB) (user_id folder_id : Nat)
    (new_parent_id : Option Nat) : Option Bool × DB :=
  if new_parent_id == some folder_id then
    (some false, db)
  else
    let matched := db.folders.any (fun g => g.id == folder_id && g.user_id == user_id)
    let parent_ok :=
      match new_parent_id with
      | none => true
      | some p => db.folders.any (fun g => g.id == p)
    if matched && !parent_ok then
      (none, db)
    else
      (some matched,
        { db with
          folders := db.folders.map (fun g =>
            if g.id == folder_id && g.user_id == user_id then
              { g with parent_id := new_parent_id }
            else g) })

/-- `NoteDatabase._collect_descendants`: recursive walk over the owner-scoped
`parent_id` edges, listing children before their own descendants.  The Python
recursion has no bound (it would not terminate on a parent cycle); the model
carries explicit fuel, and callers pass the folder count, which is enough fuel
for every acyclic state. -/
def collect_descendants (folders : List Folder) (user_id : Nat) :
    Nat → Nat → List Nat
  | 0, _ => []
  | fuel + 1, fid =>
    let children :=
      (folders.filter (fun g => g.user_id == user_id && g.parent_id == some fid)).map (·.id)
    children.flatMap (fun c => c :: collect_descendants folders user_id fuel c)

/-- The set of folder rows removed by SQLite when one folder row is deleted:
ON DELETE CASCADE follows `parent_id` edges with no owner filter.  Same
traversal shape as `collect_descendants`, with the same fuel discipline. -/
def cascade_descendants (folders : List Folder) : Nat → Nat → List Nat
  | 0, _ => []
  | fuel + 1, fid =>
    let children :=
      (folders.filter (fun g => g.parent_id == some fid)).map (·.id)
    children.flatMap (fun c => c :: cascade_descendants folders fuel c)

/-- The ids `[folder_id] + descendants` that `NoteDatabase.delete_folder`
computes for its UPDATE over `notes`. -/
def subtree_ids (db : DB) (user_id folder_id : Nat) : List Nat :=
  folder_id :: collect_descendants db.folders user_id db.folders.length folder_id

/-- `NoteDatabase.delete_folder`: first UPDATE notes SET folder_id = NULL
WHERE user_id = ? AND folder_id IN (target plus owner-scoped descendants),
then DELETE FROM folders WHERE id = ? AND user_id = ?, whose cascade removes
every folder reachable from the target over `parent_id` edges (owner-blind).
The single commit at the end persists the UPDATE even when the DELETE matched
nothing and the method returns `False`. -/
def delete_folder (db : DB) (user_id folder_id : Nat) : Bool × DB :=
  let ids := subtree_ids db user_id folder_id
  let notes1 := db.notes.map (fun n =>
    if n.user_id == user_id && ids.any (fun i => n.folder_id == some i) then
      { n with folder_id := none }
    else n)
  if db.folders.any (fun g => g.id == folder_id && g.user_id == user_id) then
    let del := folder_id :: cascade_descendants db.folders db.folders.length folder_id
    (true,
      { db with
        notes := notes1,
        folders := db.folders.filter (fun g => !del.contains g.id) })
  else
    (false, { db with notes := notes1 })

/-- ASCII case folding as used by SQLite `LIKE` with default settings: the
letters A-Z compare equal to a-z, all other characters compare exactly. -/
def fold_ascii (c : Char) : Char :=
  if 65 ≤ c.toNat && c.toNat ≤ 90 then Char.ofNat (c.toNat + 32) else c

/-- SQLite `LIKE` pattern matching (no ESCAPE clause): `%` matches any run of
characters (expressed structurally: some suffix of the text matches the rest
of the pattern), `_` matches exactly one character, and any other pattern
character matches ASCII-case-insensitively. -/
def like_match : List Char → List Char → Bool
  | [], t => t.isEmpty
  | '%' :: ps, t => t.tails.any (fun t2 => like_match ps t2)
  | '_' :: _, [] => false
  | '_' :: ps, _ :: ts => like_match ps ts
  | _ :: _, [] => false
  | p :: ps, c :: ts => (fold_ascii p == fold_ascii c) && like_match ps ts

/-- The pattern `%query%` built by `search_user_notes`. -/
def like_pat (q : String) : List Char := '%' :: (q.data ++ ['%'])

/-- The WHERE clause of `search_user_notes`: title LIKE ? OR content LIKE ?. -/
def note_matches (q : String) (n : Note) : Bool :=
  like_match (like_pat q) n.title.data || like_match (like_pat q) n.content.data

/-- The columns selected by `search_user_notes` (id, title, content,
created_at, modified_at). -/
structure NoteSummary where
  id : Nat
  title : String
  content : String
  created_at : Nat
  modified_at : Nat
deriving Repr, DecidableEq

/-- Projection of a notes row to the selected columns. -/
def to_summary (n : Note) : NoteSummary :=
  ⟨n.id, n.title, n.content, n.created_at, n.modified_at⟩

/-- The ORDER BY modified_at DESC relation. -/
def note_desc (a b : Note) : Prop := b.modified_at ≤ a.modified_at

instance : DecidableRel note_desc := fun a b => Nat.decLe _ _

instance : IsTotal Note note_desc := ⟨fun a b => Nat.le_total _ _⟩

instance : IsTrans Note note_desc := ⟨fun _ _ _ h1 h2 => Nat.le_trans h2 h1⟩

/-- `NoteDatabase.search_user_notes`: SELECT with the LIKE filter, ordered by
modified_at descending. -/
def search_user_notes (db : DB) (user_id : Nat) (q : String) : List NoteSummary :=
  let rows := db.notes.filter (fun n => n.user_id == user_id && note_matches q n)
  (List.insertionSort note_desc rows).map to_summary

/-- Plain case-sensitive prefix check on character lists (specification-side
helper for the substring reading of search, not part of the code). -/
def starts_with : List Char → List Char → Bool
  | [], _ => true
  | _ :: _, [] => false
  | a :: ps, b :: ts => a == b && starts_with ps ts

/-- Plain case-sensitive containment of `pat` in `text`
(specification-side helper, not part of the code). -/
def has_substr : List Char → List Char → Bool
  | [], pat => starts_with pat []
  | c :: ts, pat => starts_with pat (c :: ts) || has_substr ts pat

/-- String version of `has_substr`: the query `q` occurs in `s`. -/
def str_has_substr (s q : String) : Bool := has_substr s.data q.data

/-- SELECT id FROM tags WHERE name = ? (first row). -/
def find_tag_id (tags : List Tag) (name : String) : Option Nat :=
  (tags.find? (fun t => t.name == name)).map (·.id)

/-- INSERT OR IGNORE INTO tags (name): a new row with the next id is added
unless the UNIQUE(name) constraint already holds a row with this name. -/
def ensure_tag (db : DB) (name : String) : DB :=
  if db.tags.any (fun t => t.name == name) then db
  else
    { db with
      tags := db.tags ++ [⟨db.next_tag_id, name⟩],
      next_tag_id := db.next_tag_id + 1 }

/-- The loop body of `add_note_tags`: for each name, INSERT OR IGNORE the tag,
SELECT its id, INSERT OR IGNORE the association (the composite primary key
makes the second insert a no-op when the pair exists).  The `none` result
models the `except Exception` branch reached when the tag SELECT returns no
row (`fetchone()[0]` raising); the caller then returns `None` and, as no
commit has happened, the state reverts. -/
def add_note_tags_aux (note_id : Nat) : DB → List String → Option DB
  | db, [] => some db
  | db, name :: rest =>
    let db1 := ensure_tag db name
    match find_tag_id db1.tags name with
    | none => none
    | some tag_id =>
      let db2 :=
        if db1.note_tags.contains (note_id, tag_id) then db1
        else { db1 with note_tags := db1.note_tags ++ [(note_id, tag_id)] }
      add_note_tags_aux note_id db2 rest

/-- SELECT t.name FROM tags t JOIN note_tags nt ... WHERE nt.note_id = ?,
iterating the associations in table order. -/
def note_tag_names (db : DB) (note_id : Nat) : List String :=
  (db.note_tags.filter (fun a => a.1 == note_id)).filterMap
    (fun a => (db.tags.find? (fun t => t.id == a.2)).map (·.name))

/-- `NoteDatabase.add_note_tags`: resolve the note by owner and title, then
run the tag loop; `None` when the note is missing. -/
def add_note_tags (db : DB) (user_id : Nat) (title : String)
    (tags : List String) : Option (List String) × DB :=
  match db.notes.find? (fun n => n.user_id == user_id && n.title == title) with
  | none => (none, db)
  | some note =>
    match add_note_tags_aux note.id db tags with
    | none => (none, db)
    | some db1 => (some (note_tag_names db1 note.id), db1)

/-- The loop body of `add_todo_tags`, identical to the note version but over
`todo_tags`. -/
def add_todo_tags_aux (todo_id : Nat) : DB → List String → Option DB
  | db, [] => some db
  | db, name :: rest =>
    let db1 := ensure_tag db name
    match find_tag_id db1.tags name with
    | none => none
    | some tag_id =>
      let db2 :=
        if db1.todo_tags.contains (todo_id, tag_id) then db1
        else { db1 with todo_tags := db1.todo_tags ++ [(todo_id, tag_id)] }
      add_todo_tags_aux todo_id db2 rest

/-- `NoteDatabase.add_todo_tags`: owner check on the todo, then the tag loop. -/
def add_todo_tags (db : DB) (user_id todo_id : Nat)
    (tags : List String) : Option (List String) × DB :=
  if db.todos.any (fun t => t.id == todo_id && t.user_id == user_id) then
    match add_todo_tags_aux todo_id db tags with
    | none => (none, db)
    | some db1 =>
      (some ((db1.todo_tags.filter (fun a => a.1 == todo_id)).filterMap
        (fun a => (db1.tags.find? (fun t => t.id == a.2)).map (·.name))), db1)
  else (none, db)

/-- SELECT id FROM notes WHERE user_id = ? AND title = ? (first row). -/
def get_note_id_by_title (db : DB) (user_id : Nat) (title : String) : Option Nat :=
  (db.notes.find? (fun n => n.user_id == user_id && n.title == title)).map (·.id)

/-- `NoteDatabase.create_todo`: resolve the linked note title if one is given
(`if note_title:` is Python truthiness, so the empty string is skipped), then
INSERT INTO todos storing the priority string verbatim.  The only checked
constraint that can fail is the `user_id` foreign key; the method has no
handler, so a violation raises (modelled as `none`, nothing committed). -/
def create_todo (db : DB) (user_id : Nat) (title description : String)
    (due_date : Option String) (priority : String)
    (note_title : Option String) : Option Nat × DB :=
  let note_id :=
    match note_title with
    | none => none
    | some s => if s.isEmpty then none else get_note_id_by_title db user_id s
  if !user_exists db user_id then (none, db)
  else
    let tid := db.next_todo_id
    (some tid,
      { db with
        todos := db.todos ++
          [⟨tid, user_id, title, description, due_date, priority, false, db.now, note_id⟩],
        next_todo_id := tid + 1 })

/-- ASCII whitespace, as removed by Python `str.strip()`. -/
def char_space (c : Char) : Bool :=
  c == ' ' || c == '\t' || c == '\n' || c == '\r' || c == '\x0b' || c == '\x0c'

/-- Python `str.strip()` (whitespace removal at both ends, modelled for the
ASCII whitespace characters). -/
def py_strip (s : String) : String :=
  String.mk (((s.data.dropWhile char_space).reverse.dropWhile char_space).reverse)

/-- The state of `NoteDatabaseSystem` from `backend/main.py`: the database
plus the in-memory `active_sessions` map (association list from session id to
username). -/
structure System where
  db : DB
  active_sessions : List (String × String)
deriving Repr, DecidableEq

/-- SELECT id FROM users WHERE username = ? (first row). -/
def get_user_id (db : DB) (username : String) : Option Nat :=
  (db.users.find? (fun u => u.username == username)).map (·.id)

/-- `NoteDatabaseSystem._validate_session`: session id to username to user id. -/
def validate_session (sys : System) (session_id : String) : Option Nat :=
  match (sys.active_sessions.find? (fun p => p.1 == session_id)).map (·.2) with
  | none => none
  | some username => get_user_id sys.db username

/-- Outcome of a JSON-returning wrapper method: `ok` carries the created id of
a success payload, `err` the exact failure message, and `caught` stands for
the `except Exception` branch whose message interpolates the exception text. -/
inductive SysResult where
  | ok (id : Nat)
  | err (msg : String)
  | caught
deriving Repr, DecidableEq

/-- `NoteDatabaseSystem.create_todo`: session check (`if not user_id` is
Python truthiness), required-title check, coercion of an invalid priority to
"normal", the database insert, then optional tag attachment
(`if todo_id and tags:` with list truthiness). -/
def sys_create_todo (sys : System) (session_id title description : String)
    (due_date : Option String) (priority : String) (tags : Option (List String))
    (note_title : Option String) : SysResult × System :=
  let uid? := validate_session sys session_id
  if !truthy_nat uid? then (.err "Not logged in", sys)
  else
    let uid := uid?.getD 0
    if (py_strip title).isEmpty then (.err "Title is required", sys)
    else
      let priority1 :=
        if priority == "low" || priority == "normal" || priority == "high" then priority
        else "normal"
      let desc := if description.isEmpty then "" else py_strip description
      let nt :=
        match note_title with
        | none => none
        | some s => if s.isEmpty then none else some (py_strip s)
      match create_todo sys.db uid (py_strip title) desc due_date priority1 nt with
      | (none, db1) => (.caught, { sys with db := db1 })
      | (some todo_id, db1) =>
        let tag_list := tags.getD []
        if todo_id != 0 && !tag_list.isEmpty then
          let clean := (tag_list.filter (fun s => !(py_strip s).isEmpty)).map py_strip
          if !clean.isEmpty then
            (.ok todo_id, { sys with db := (add_todo_tags db1 uid todo_id clean).2 })
          else (.ok todo_id, { sys with db := db1 })
        else (.ok todo_id, { sys with db := db1 })

/-- A todo dictionary of the in-memory variant in `main.py`. -/
structure MTodo where
  id : Nat
  created : String
  title : String
  description : String
  due_date : Option String
  priority : String
  completed : Bool
  tags : List String
  note_title : Option String
deriving Repr, DecidableEq

/-- The module-level `user_todos` map of `main.py`: username to todo list. -/
abbrev MState := List (String × List MTodo)

/-- `_ensure_user_todos`. -/
def ensure_user_todos (st : MState) (username : String) : MState :=
  if st.any (fun p => p.1 == username) then st else st ++ [(username, [])]

/-- Lookup of `user_todos[username]` (total: callers run
`_ensure_user_todos` first). -/
def mstate_get (st : MState) (username : String) : List MTodo :=
  ((st.find? (fun p => p.1 == username)).map (·.2)).getD []

/-- Assignment `user_todos[username] = l`. -/
def mstate_set (st : MState) (username : String) (l : List MTodo) : MState :=
  st.map (fun p => if p.1 == username then (p.1, l) else p)

/-- Check that every character is an ASCII digit. -/
def all_digits (l : List Char) : Bool := l.all (·.isDigit)

/-- Numeric value of a two-digit string fragment. -/
def two_digits (a b : Char) : Nat := (a.toNat - 48) * 10 + (b.toNat - 48)

/-- Models `datetime.strptime(s, "%Y-%m-%d %H:%M")` followed by
`.isoformat()` on the canonical zero-padded form, returning the stored
string.  `strptime` additionally accepts unpadded fields and checks the day
against the calendar month; no claim exercises those inputs, and this model
rejects the former and caps the day at 31. -/
def parse_due_date (s : String) : Option String :=
  match s.data with
  | [y1, y2, y3, y4, '-', m1, m2, '-', d1, d2, ' ', h1, h2, ':', n1, n2] =>
    if all_digits [y1, y2, y3, y4, m1, m2, d1, d2, h1, h2, n1, n2]
        && 1 ≤ two_digits m1 m2 && two_digits m1 m2 ≤ 12
        && 1 ≤ two_digits d1 d2 && two_digits d1 d2 ≤ 31
        && two_digits h1 h2 ≤ 23 && two_digits n1 n2 ≤ 59 then
      some (String.mk [y1, y2, y3, y4, '-', m1, m2, '-', d1, d2, 'T', h1, h2, ':', n1, n2, ':', '0', '0'])
    else none
  | _ => none

/-- The module-level `create_todo` of `main.py` (the in-memory variant): it
REJECTS an invalid priority with an error instead of coercing it.  `today`
stands for `str(date.today())`; `list(set(tags or []))` is modelled by
`eraseDups` (Python set order is unspecified); a truthy `reminder_minutes`
only spawns a printing thread and changes no stored state. -/
def module_create_todo (st : MState) (username title description : String)
    (due_date : Option String) (priority : String) (tags : List String)
    (note_title : Option String) (reminder_minutes : Option Nat)
    (today : String) : SysResult × MState :=
  let st1 := ensure_user_todos st username
  if !(priority == "low" || priority == "normal" || priority == "high") then
    (.err "Invalid priority", st1)
  else
    let parsed : Option (Option String) :=
      match due_date with
      | none => some none
      | some s =>
        if s.isEmpty then some none
        else
          match parse_due_date s with
          | none => none
          | some iso => some (some iso)
    match parsed with
    | none => (.err "Due date must be YYYY-MM-DD HH:MM", st1)
    | some dd =>
      let cur := mstate_get st1 username
      let todo : MTodo :=
        ⟨cur.length + 1, today, title, description, dd, priority, false,
          tags.eraseDups, note_title⟩
      (.ok (cur.length + 1), mstate_set st1 username (cur ++ [todo]))

/-- A node of the forest returned by `list_folders_tree`. -/
inductive FolderNode where
  | mk (id : Nat) (name : String) (parent_id : Option Nat)
       (children : List FolderNode)

/-- The id of a node. -/
def FolderNode.id : FolderNode → Nat
  | ⟨i, _, _, _⟩ => i

/-- The name of a node. -/
def FolderNode.name : FolderNode → String
  | ⟨_, nm, _, _⟩ => nm

/-- The parent id of a node. -/
def FolderNode.parent_id : FolderNode → Option Nat
  | ⟨_, _, p, _⟩ => p

/-- The children of a node. -/
def FolderNode.children : FolderNode → List FolderNode
  | ⟨_, _, _, cs⟩ => cs

/-- Lexicographic comparison of character lists by codepoint, which on UTF-8
encoded text coincides with the memcmp byte order SQLite uses for TEXT
values in ORDER BY. -/
def chars_le : List Char → List Char → Bool
  | [], _ => true
  | _ :: _, [] => false
  | a :: as, b :: bs =>
    if a.toNat < b.toNat then true
    else if b.toNat < a.toNat then false
    else chars_le as bs

/-- The SQLite TEXT ordering on strings. -/
def str_le (a b : String) : Bool := chars_le a.data b.data

/-- The ORDER BY name relation on folder rows. -/
def folder_le (a b : Folder) : Prop := str_le a.name b.name = true

instance : DecidableRel folder_le := fun a b =>
  inferInstanceAs (Decidable (str_le a.name b.name = true))

instance : IsTotal Folder folder_le := by
  constructor
  intro a b
  show str_le a.name b.name = true ∨ str_le b.name a.name = true
  unfold str_le
  generalize a.name.data = x
  generalize b.name.data = y
  induction x generalizing y with
  | nil => left; rfl
  | cons c cs ih =>
    cases y with
    | nil => right; rfl
    | cons d ds =>
      rcases Nat.lt_trichotomy c.toNat d.toNat with hlt | heq | hgt
      · left
        simp [chars_le, hlt]
      · rcases ih ds with h | h
        · left
          simp [chars_le, heq, h]
        · right
          simp [chars_le, heq, h]
      · right
        simp [chars_le, hgt]

instance : IsTrans Folder folder_le := by
  constructor
  intro a b c
  show str_le a.name b.name = true → str_le b.name c.name = true →
    str_le a.name c.name = true
  unfold str_le
  generalize a.name.data = x
  generalize b.name.data = y
  generalize c.name.data = z
  induction x generalizing y z with
  | nil => intro _ _; rfl
  | cons p ps ih =>
    intro h1 h2
    cases y with
    | nil => cases h1
    | cons q qs =>
      cases z with
      | nil => cases h2
      | cons r rs =>
        simp only [chars_le] at h1 h2 ⊢
        split_ifs at h1 h2 ⊢ <;>
          first
            | rfl
            | exact ih qs rs h1 h2
            | exact Bool.noConfusion h1
            | exact Bool.noConfusion h2
            | (exfalso; omega)

/-- The owner-scoped folder rows in the order the SELECT ... ORDER BY name of
`list_folders_tree` delivers them. -/
def owner_rows (db : DB) (user_id : Nat) : List Folder :=
  List.insertionSort folder_le (db.folders.filter (fun g => g.user_id == user_id))

/-- The condition under which `list_folders_tree` attaches a row to a parent
node instead of the root list: `if pid and pid in nodes` with Python
truthiness of `pid`. -/
def attaches (ids : List Nat) (pid : Option Nat) : Bool :=
  match pid with
  | none => false
  | some p => p != 0 && ids.contains p

/-- The nested node that `list_folders_tree` builds for one folder: the
Python code mutates shared dictionaries, appending each row to the `children`
list of its parent node in row order; for an acyclic folder set this produces
exactly the recursive unfolding computed here.  The fuel argument bounds the
recursion depth; callers pass the row count, which every acyclic state stays
below. -/
def build_node (rows : List Folder) : Nat → Folder → FolderNode
  | 0, f => ⟨f.id, f.name, f.parent_id, []⟩
  | fuel + 1, f =>
    ⟨f.id, f.name, f.parent_id,
      (rows.filter (fun g => g.parent_id == some f.id && f.id != 0)).map
        (build_node rows fuel)⟩

/-- `NoteDatabase.list_folders_tree`: load the owner rows sorted by name,
return the rows that do not attach to a present parent as roots, each
carrying its nested children. -/
def list_folders_tree (db : DB) (user_id : Nat) : List FolderNode :=
  let rows := owner_rows db user_id
  let ids := rows.map Folder.id
  let roots := rows.filter (fun g => !attaches ids g.parent_id)
  roots.map (build_node rows rows.length)

/-- The data triple of a node (specification-side). -/
def node_data (n : FolderNode) : Nat × String × Option Nat :=
  (n.id, n.name, n.parent_id)

/-- The data triple of a folder row (specification-side). -/
def folder_data (g : Folder) : Nat × String × Option Nat :=
  (g.id, g.name, g.parent_id)

/-- Sibling names appear in ascending order (specification-side). -/
def names_sorted : List FolderNode → Bool
  | [] => true
  | [_] => true
  | a :: b :: l => str_le a.name b.name && names_sorted (b :: l)

/-- Specification-side well-formedness of one returned node with respect to
the owner rows: its children are exactly the rows whose `parent_id` points at
it, in row order (hence name order), and recursively so. -/
def good_node (rows : List Folder) : FolderNode → Bool
  | ⟨i, _, _, cs⟩ =>
    (cs.map node_data ==
      (rows.filter (fun g => g.parent_id == some i)).map folder_data)
    && names_sorted cs
    && cs.attach.all (fun c => good_node rows c.1)
decreasing_by
  have := List.sizeOf_lt_of_mem c.2
  simp only [FolderNode.mk.sizeOf_spec]
  omega

/-- Schema invariants of the `tags` table that SQLite maintains: UNIQUE(name),
the primary key on id, and the AUTOINCREMENT counter staying above every
issued id. -/
def tags_wf (db : DB) : Prop :=
  (db.tags.map Tag.name).Nodup ∧ (db.tags.map Tag.id).Nodup ∧
    ∀ t ∈ db.tags, t.id < db.next_tag_id

/-! Concrete database states used by counterexamples and witnesses. -/

/-- Two users; user 1 owns one folder. -/
def db_two_users_one_folder : DB :=
  ⟨[⟨1, "alice"⟩, ⟨2, "bob"⟩], [], [⟨1, 1, "root", none⟩], [], [], [], [], 1, 2, 1, 1, 0⟩

/-- User 1 owns one note whose `folder_id` dangles at 99 (reachable: the
column has no foreign key, and `create_note` accepts any folder id). -/
def db_dangling_folder_ref : DB :=
  ⟨[⟨1, "alice"⟩], [⟨1, 1, "n", "c", 0, 0, none, some 99⟩], [], [], [], [], [], 2, 1, 1, 1, 0⟩

/-- User 1 owns one note titled ABC with content xyz. -/
def db_upper_note : DB :=
  ⟨[⟨1, "alice"⟩], [⟨1, 1, "ABC", "xyz", 0, 0, none, none⟩], [], [], [], [], [], 2, 1, 1, 1, 0⟩

/-- Two users; user 1 owns a note titled t. -/
def db_note_t : DB :=
  ⟨[⟨1, "alice"⟩, ⟨2, "bob"⟩], [⟨1, 1, "t", "c", 0, 0, none, none⟩], [], [], [], [], [],
    2, 1, 1, 1, 0⟩

/-- User 1 owns a note and a todo that links to it. -/
def db_note_todo : DB :=
  ⟨[⟨1, "alice"⟩], [⟨1, 1, "n", "c", 0, 0, none, none⟩], [], [], [],
    [⟨1, 1, "x", "", none, "normal", false, 0, some 1⟩], [], 2, 1, 1, 2, 0⟩

/-- User 1 owns folder A with subfolder B; one note sits in B, one outside. -/
def db_folder_pair : DB :=
  ⟨[⟨1, "alice"⟩],
    [⟨1, 1, "n1", "c", 0, 0, none, some 2⟩, ⟨2, 1, "n2", "c", 0, 0, none, none⟩],
    [⟨1, 1, "A", none⟩, ⟨2, 1, "B", some 1⟩], [], [], [], [], 3, 3, 1, 1, 0⟩

/-- User 1 owns the chain of folders A, B under A, C under B. -/
def db_folders_abc : DB :=
  ⟨[⟨1, "alice"⟩], [],
    [⟨1, 1, "A", none⟩, ⟨2, 1, "B", some 1⟩, ⟨3, 1, "C", some 2⟩],
    [], [], [], [], 1, 4, 1, 1, 0⟩

/-- A system with one registered user and one live session for them. -/
def sys_alice : System :=
  ⟨⟨[⟨1, "alice"⟩], [], [], [], [], [], [], 1, 1, 1, 1, 0⟩, [("s", "alice")]⟩

/-! Theorems. -/

/-- C3: for every owner and folder f, `move_folder(owner, f, f)` returns
false and leaves the database (hence every folder name and parent id)
unchanged. -/
theorem move_folder_self_parent_rejected (db : DB) (u f : Nat) :
    move_folder db u f (some f) = (some false, db) := by
  simp [move_folder]

/-- C1: creating a note whose (owner, title) pair already exists fails with
`None` and leaves the store unchanged, while the same title under another
owner with no such note succeeds and stores the row. -/
theorem create_note_title_unique_per_owner (db : DB) (u u2 : Nat)
    (t c c2 : String) (fid fid2 : Option Nat) :
    ((∃ n ∈ db.notes, n.user_id = u ∧ n.title = t) →
      create_note db u t c fid = (none, db)) ∧
    ((∃ usr ∈ db.users, usr.id = u2) →
      (∀ n ∈ db.notes, n.user_id = u2 → n.title ≠ t) →
      (create_note db u2 t c2 fid2).1 = some db.next_note_id ∧
      (⟨db.next_note_id, u2, t, c2, db.now, db.now, none, fid2⟩ : Note) ∈
        (create_note db u2 t c2 fid2).2.notes) := by
  constructor
  · rintro ⟨n, hn, hu, ht⟩
    have hdup : db.notes.any (fun m => m.user_id == u && m.title == t) = true :=
      List.any_eq_true.mpr ⟨n, hn, by simp [hu, ht]⟩
    simp [create_note, hdup]
  · rintro ⟨usr, husr, hid⟩ hno
    have h1 : user_exists db u2 = true :=
      List.any_eq_true.mpr ⟨usr, husr, by simp [hid]⟩
    have h2 : db.notes.any (fun m => m.user_id == u2 && m.title == t) = false := by
      refine List.any_eq_false.mpr (fun m hm => ?_)
      simp only [Bool.and_eq_true, beq_iff_eq, not_and]
      exact fun hu2 ht2 => hno m hm hu2 ht2
    simp [create_note, h1, h2]

/-- C1 witness: in a concrete store where user 1 already owns a note titled
t, re-creating it fails with the store unchanged, and user 2 can create a
note with the same title. -/
theorem create_note_title_unique_per_owner_witness :
    create_note db_note_t 1 "t" "c" none = (none, db_note_t) ∧
    ((create_note db_note_t 2 "t" "d" none).1 = some db_note_t.next_note_id ∧
      (⟨db_note_t.next_note_id, 2, "t", "d", db_note_t.now, db_note_t.now, none, none⟩ : Note) ∈
        (create_note db_note_t 2 "t" "d" none).2.notes) :=
  ⟨(create_note_title_unique_per_owner db_note_t 1 2 "t" "c" "d" none none).1
      (by decide),
    (create_note_title_unique_per_owner db_note_t 1 2 "t" "c" "d" none none).2
      (by decide) (by decide)⟩

/-- C10: when a todo row references a note, `delete_note` on that note raises
an uncaught `sqlite3.IntegrityError` (the `todos.note_id` foreign key has no
ON DELETE action) instead of returning a boolean, and the store is
unchanged. -/
theorem delete_note_todo_reference_raises (db : DB) (u : Nat) (t : String)
    (n : Note) (td : Todo) (hn : n ∈ db.notes) (hu : n.user_id = u)
    (ht : n.title = t) (htd : td ∈ db.todos) (href : td.note_id = some n.id) :
    delete_note db u t = (none, db) := by
  have hmem : n ∈ db.notes.filter (fun m => m.user_id == u && m.title == t) :=
    List.mem_filter.mpr ⟨hn, by simp [hu, ht]⟩
  have hany : (db.notes.filter (fun m => m.user_id == u && m.title == t)).any
      (fun m => db.todos.any (fun x => x.note_id == some m.id)) = true :=
    List.any_eq_true.mpr ⟨n, hmem, List.any_eq_true.mpr ⟨td, htd, by simp [href]⟩⟩
  simp [delete_note, hany]

/-- C10 witness: deleting the concrete note referenced by a concrete todo
raises (result `none`) and leaves the store unchanged. -/
theorem delete_note_todo_reference_raises_witness :
    delete_note db_note_todo 1 "n" = (none, db_note_todo) :=
  delete_note_todo_reference_raises db_note_todo 1 "n"
    ⟨1, 1, "n", "c", 0, 0, none, none⟩
    ⟨1, 1, "x", "", none, "normal", false, 0, some 1⟩
    (by decide) (by decide) (by decide) (by decide) (by decide)

/-- C4 counterexample: `create_folder` with a parent that exists but belongs
to another owner does not fail with InvalidParent; it succeeds and creates
the folder row with the cross-owner parent. -/
theorem create_folder_cross_owner_parent_accepted :
    (create_folder db_two_users_one_folder 2 "x" (some 1)).1 = some 2 ∧
    (⟨2, 2, "x", some 1⟩ : Folder) ∈
      (create_folder db_two_users_one_folder 2 "x" (some 1)).2.folders := by
  decide

/-- C4 amended: `create_folder` with a parent id that references no folder at
all raises the foreign-key `IntegrityError` (nothing is created), while a
parent id of any existing folder, even one owned by another user, is accepted
and the row is created with that parent. -/
theorem create_folder_parent_fk_spec (db : DB) (u : Nat) (nm : String) (p : Nat) :
    ((∀ g ∈ db.folders, g.id ≠ p) → create_folder db u nm (some p) = (none, db)) ∧
    ((∃ usr ∈ db.users, usr.id = u) → (∃ g ∈ db.folders, g.id = p) →
      (create_folder db u nm (some p)).1 = some db.next_folder_id ∧
      (⟨db.next_folder_id, u, nm, some p⟩ : Folder) ∈
        (create_folder db u nm (some p)).2.folders) := by
  constructor
  · intro h
    have hp : db.folders.any (fun g => g.id == p) = false :=
      List.any_eq_false.mpr (fun g hg => by simp [h g hg])
    simp [create_folder, hp]
  · rintro ⟨usr, husr, hid⟩ ⟨g, hg, hgid⟩
    have h1 : user_exists db u = true :=
      List.any_eq_true.mpr ⟨usr, husr, by simp [hid]⟩
    have h2 : db.folders.any (fun x => x.id == p) = true :=
      List.any_eq_true.mpr ⟨g, hg, by simp [hgid]⟩
    simp [create_folder, h1, h2]

/-- C4 amended witness: with a dangling parent 7 the insert raises and
changes nothing; with the existing parent 1 the insert succeeds. -/
theorem create_folder_parent_fk_spec_witness :
    create_folder db_two_users_one_folder 2 "x" (some 7) =
      (none, db_two_users_one_folder) ∧
    ((create_folder db_two_users_one_folder 2 "x" (some 1)).1 =
      some db_two_users_one_folder.next_folder_id ∧
      (⟨db_two_users_one_folder.next_folder_id, 2, "x", some 1⟩ : Folder) ∈
        (create_folder db_two_users_one_folder 2 "x" (some 1)).2.folders) :=
  ⟨(create_folder_parent_fk_spec db_two_users_one_folder 2 "x" 7).1 (by decide),
    (create_folder_parent_fk_spec db_two_users_one_folder 2 "x" 1).2
      (by decide) (by decide)⟩

/-- C5 counterexample: `delete_folder` can return false (folder 99 does not
exist under user 1) while still clearing the `folder_id` of a note, because
the detaching UPDATE is committed regardless of whether the DELETE matched. -/
theorem delete_folder_false_mutates_notes :
    (delete_folder db_dangling_folder_ref 1 99).1 = false ∧
    db_dangling_folder_ref.notes.map Note.folder_id = [some 99] ∧
    (delete_folder db_dangling_folder_ref 1 99).2.notes.map Note.folder_id = [none] := by
  decide

/-- C5 amended: when `delete_folder` returns false no folder row is touched,
and the database is fully unchanged provided no note of the owner has its
`folder_id` inside the computed target set (the UPDATE that clears such
references is committed even on failure). -/
theorem delete_folder_failure_frame (db : DB) (u f : Nat)
    (h : (delete_folder db u f).1 = false) :
    (delete_folder db u f).2.folders = db.folders ∧
    ((∀ n ∈ db.notes, n.user_id = u → ∀ i ∈ subtree_ids db u f, n.folder_id ≠ some i) →
      delete_folder db u f = (false, db)) := by
  by_cases hc : db.folders.any (fun g => g.id == f && g.user_id == u) = true
  · exfalso
    simp [delete_folder, hc] at h
  · have hc' : db.folders.any (fun g => g.id == f && g.user_id == u) = false := by
      simpa using hc
    constructor
    · simp [delete_folder, hc']
    · intro hno
      have hid : ∀ n ∈ db.notes,
          (if n.user_id == u && (subtree_ids db u f).any (fun i => n.folder_id == some i) then
            { n with folder_id := none } else n) = n := by
        intro n hn
        have hcond : (n.user_id == u &&
            (subtree_ids db u f).any (fun i => n.folder_id == some i)) = false := by
          by_cases hu : n.user_id = u
          · have : (subtree_ids db u f).any (fun i => n.folder_id == some i) = false :=
              List.any_eq_false.mpr (fun i hi => by simp [hno n hn hu i hi])
            simp [this]
          · simp [hu]
        simp [hcond]
      have hmapeq : db.notes.map (fun n =>
          if n.user_id == u && (subtree_ids db u f).any (fun i => n.folder_id == some i) then
            { n with folder_id := none } else n) = db.notes := by
        rw [List.map_congr_left hid]
        exact List.map_id db.notes
      simp only [delete_folder, hc', Bool.false_eq_true, if_false]
      rw [hmapeq]

/-- C5 amended witness: deleting the missing folder 5 in a store whose notes
never reference it returns false and changes nothing. -/
theorem delete_folder_failure_frame_witness :
    (delete_folder db_note_t 1 5).2.folders = db_note_t.folders ∧
    delete_folder db_note_t 1 5 = (false, db_note_t) :=
  ⟨(delete_folder_failure_frame db_note_t 1 5 (by decide)).1,
    (delete_folder_failure_frame db_note_t 1 5 (by decide)).2 (by decide)⟩

/-- C6 counterexample: the module-level `create_todo` of `main.py`, cited by
the claim, rejects the out-of-enum priority "urgent" with an error instead of
coercing it to "normal" and succeeding. -/
theorem module_create_todo_rejects_invalid_priority :
    module_create_todo [] "alice" "buy milk" "" none "urgent" [] none none "2026-10-12" =
      (SysResult.err "Invalid priority", [("alice", [])]) := by
  rfl

/-- C6 amended: `NoteDatabaseSystem.create_todo` (the database-backed system
of `backend/main.py`) coerces an out-of-enum priority to "normal" and
succeeds, storing the todo with priority "normal"; the in-memory module-level
`create_todo` of `main.py` instead rejects such a priority with an
"Invalid priority" error. -/
theorem sys_create_todo_coerces_priority (sys : System) (sid t d : String)
    (due : Option String) (p : String) (uid : Nat)
    (hs : validate_session sys sid = some uid) (h0 : uid ≠ 0)
    (ht : (py_strip t).isEmpty = false)
    (hp1 : p ≠ "low") (hp2 : p ≠ "normal") (hp3 : p ≠ "high") :
    (sys_create_todo sys sid t d due p none none).1 = SysResult.ok sys.db.next_todo_id ∧
    (⟨sys.db.next_todo_id, uid, py_strip t, (if d.isEmpty then "" else py_strip d), due,
        "normal", false, sys.db.now, none⟩ : Todo) ∈
      (sys_create_todo sys sid t d due p none none).2.db.todos := by
  have huser : user_exists sys.db uid = true := by
    unfold validate_session at hs
    cases hfind : (sys.active_sessions.find? (fun q => q.1 == sid)).map (·.2) with
    | none => rw [hfind] at hs; cases hs
    | some uname =>
      rw [hfind] at hs
      unfold get_user_id at hs
      obtain ⟨usr, hfu, huid⟩ := Option.map_eq_some'.mp hs
      exact List.any_eq_true.mpr
        ⟨usr, List.mem_of_find?_eq_some hfu, by simp [huid]⟩
  have hpriority : (p == "low" || p == "normal" || p == "high") = false := by
    simp [hp1, hp2, hp3]
  simp only [sys_create_todo, hs, create_todo, hpriority, truthy_nat]
  simp [h0, ht, huser]

/-- C6 amended witness: through a live session of the registered user alice,
the system layer accepts priority "urgent" and stores the todo with priority
"normal". -/
theorem sys_create_todo_coerces_priority_witness :
    (sys_create_todo sys_alice "s" "buy" "" none "urgent" none none).1 =
      SysResult.ok sys_alice.db.next_todo_id ∧
    (⟨sys_alice.db.next_todo_id, 1, py_strip "buy", (if ("" : String).isEmpty then "" else py_strip ""),
        none, "normal", false, sys_alice.db.now, none⟩ : Todo) ∈
      (sys_create_todo sys_alice "s" "buy" "" none "urgent" none none).2.db.todos :=
  sys_create_todo_coerces_priority sys_alice "s" "buy" "" none "urgent" 1
    (by decide) (by decide) (by decide) (by decide) (by decide) (by decide)

/-- Under owner-consistent parent links, the owner-blind cascade traversal
started at a folder of the owner visits exactly the owner-scoped descendant
list that `_collect_descendants` computes. -/
theorem cascade_eq_collect (rows : List Folder) (u : Nat)
    (hown : ∀ g ∈ rows, ∀ x ∈ rows, g.parent_id = some x.id → g.user_id = x.user_id) :
    ∀ fuel fid, (∃ x ∈ rows, x.id = fid ∧ x.user_id = u) →
      cascade_descendants rows fuel fid = collect_descendants rows u fuel fid := by
  intro fuel
  induction fuel with
  | zero => intro fid _; rfl
  | succ k ih =>
    rintro fid ⟨x, hx, hxid, hxu⟩
    have hfilter : rows.filter (fun g => g.parent_id == some fid) =
        rows.filter (fun g => g.user_id == u && g.parent_id == some fid) := by
      refine List.filter_congr (fun g hg => ?_)
      by_cases hpg : g.parent_id = some fid
      · have hgu : g.user_id = u := by
          have := hown g hg x hx (by rw [hpg, hxid])
          rw [this, hxu]
        simp [hpg, hgu]
      · simp [hpg]
    simp only [cascade_descendants, collect_descendants]
    rw [hfilter]
    refine List.flatMap_congr (fun c hc => ?_)
    obtain ⟨g, hgmem, hgid⟩ := List.mem_map.mp hc
    obtain ⟨hgrows, hgcond⟩ := List.mem_filter.mp hgmem
    have hgu : g.user_id = u := by
      have := (Bool.and_eq_true _ _).mp hgcond
      simpa using this.1
    rw [ih c ⟨g, hgrows, hgid, hgu⟩]

/-- C2: deleting a folder the owner holds returns true, removes from the
folder table exactly the target and its descendants (the cascade agrees with
the collected subtree), clears `folder_id` on exactly the notes placed in
that subtree, and deletes no note; when the owner holds no such folder it
returns false. -/
theorem delete_folder_subtree_spec (db : DB) (u f : Nat)
    (hown : ∀ g ∈ db.folders, ∀ x ∈ db.folders, g.parent_id = some x.id → g.user_id = x.user_id)
    (hnotes : ∀ n ∈ db.notes, ∀ i ∈ subtree_ids db u f, n.folder_id = some i → n.user_id = u) :
    ((∃ g ∈ db.folders, g.id = f ∧ g.user_id = u) →
      (delete_folder db u f).1 = true ∧
      (∀ g, g ∈ (delete_folder db u f).2.folders ↔
        (g ∈ db.folders ∧ g.id ∉ subtree_ids db u f)) ∧
      (delete_folder db u f).2.notes = db.notes.map (fun n =>
        if (subtree_ids db u f).any (fun i => n.folder_id == some i) then
          { n with folder_id := none } else n) ∧
      (delete_folder db u f).2.notes.length = db.notes.length) ∧
    ((∀ g ∈ db.folders, g.id = f → g.user_id ≠ u) →
      (delete_folder db u f).1 = false) := by
  have hmapeq : db.notes.map (fun n =>
      if n.user_id == u && (subtree_ids db u f).any (fun i => n.folder_id == some i) then
        { n with folder_id := none } else n) =
      db.notes.map (fun n =>
      if (subtree_ids db u f).any (fun i => n.folder_id == some i) then
        { n with folder_id := none } else n) := by
    refine List.map_congr_left (fun n hn => ?_)
    by_cases hany : ((subtree_ids db u f).any (fun i => n.folder_id == some i)) = true
    · obtain ⟨i, hi, hfi⟩ := List.any_eq_true.mp hany
      have hu : n.user_id = u := hnotes n hn i hi (by simpa using hfi)
      simp [hany, hu]
    · have : ((subtree_ids db u f).any (fun i => n.folder_id == some i)) = false := by
        simpa using hany
      simp [this]
  constructor
  · rintro ⟨g0, hg0, hg0id, hg0u⟩
    have hany : db.folders.any (fun g => g.id == f && g.user_id == u) = true :=
      List.any_eq_true.mpr ⟨g0, hg0, by simp [hg0id, hg0u]⟩
    have hdel : f :: cascade_descendants db.folders db.folders.length f =
        subtree_ids db u f := by
      unfold subtree_ids
      rw [cascade_eq_collect db.folders u hown db.folders.length f ⟨g0, hg0, hg0id, hg0u⟩]
    refine ⟨by simp [delete_folder, hany], ?_, ?_, ?_⟩
    · intro g
      simp only [delete_folder, hany, if_true]
      rw [hdel]
      simp [List.mem_filter, List.contains]
    · simp only [delete_folder, hany, if_true]
      exact hmapeq
    · simp [delete_folder, hany]
  · intro hno
    have hany : db.folders.any (fun g => g.id == f && g.user_id == u) = false := by
      refine List.any_eq_false.mpr (fun g hg => ?_)
      simp only [Bool.and_eq_true, beq_iff_eq, not_and]
      exact fun h1 h2 => hno g hg h1 h2
    simp [delete_folder, hany]

/-- C2 witness: in the concrete store with folder A containing B, one note in
B and one outside, deleting A succeeds, removes exactly A and B, detaches
exactly the note in B and deletes no note. -/
theorem delete_folder_subtree_spec_witness :
    (delete_folder db_folder_pair 1 1).1 = true ∧
    (∀ g, g ∈ (delete_folder db_folder_pair 1 1).2.folders ↔
      (g ∈ db_folder_pair.folders ∧ g.id ∉ subtree_ids db_folder_pair 1 1)) ∧
    (delete_folder db_folder_pair 1 1).2.notes = db_folder_pair.notes.map (fun n =>
      if (subtree_ids db_folder_pair 1 1).any (fun i => n.folder_id == some i) then
        { n with folder_id := none } else n) ∧
    (delete_folder db_folder_pair 1 1).2.notes.length = db_folder_pair.notes.length :=
  (delete_folder_subtree_spec db_folder_pair 1 1 (by decide) (by decide)).1 (by decide)

/-- C9 counterexample: searching for "abc" in a store whose only note is
titled ABC with content xyz returns that note (SQL LIKE is
ASCII-case-insensitive), although "abc" is a plain substring of neither its
title nor its content. -/
theorem search_substring_claim_false :
    ∃ s ∈ search_user_notes db_upper_note 1 "abc",
      str_has_substr s.title "abc" = false ∧ str_has_substr s.content "abc" = false := by
  decide

/-- C9 amended: `search_user_notes` returns exactly the notes of the owner
whose title or content matches the SQL pattern LIKE percent-query-percent
(ASCII-case-insensitive, with percent and underscore in the query acting as
wildcards), ordered by `modified_at` descending. -/
theorem search_user_notes_like_spec (db : DB) (u : Nat) (q : String) :
    List.Pairwise (fun a b : NoteSummary => b.modified_at ≤ a.modified_at)
      (search_user_notes db u q) ∧
    (search_user_notes db u q).Perm
      ((db.notes.filter (fun n => n.user_id == u && note_matches q n)).map to_summary) := by
  constructor
  · have hs : List.Sorted note_desc
        (List.insertionSort note_desc
          (db.notes.filter (fun n => n.user_id == u && note_matches q n))) :=
      List.sorted_insertionSort note_desc _
    exact List.Pairwise.map to_summary (fun a b h => h) hs
  · exact List.Perm.map to_summary (List.perm_insertionSort note_desc _)

/-- The tag INSERT OR IGNORE leaves the notes table unchanged. -/
theorem ensure_tag_notes (db : DB) (nm : String) :
    (ensure_tag db nm).notes = db.notes := by
  unfold ensure_tag
  split <;> rfl

/-- The tag INSERT OR IGNORE leaves the association table unchanged. -/
theorem ensure_tag_note_tags (db : DB) (nm : String) :
    (ensure_tag db nm).note_tags = db.note_tags := by
  unfold ensure_tag
  split <;> rfl

/-- Tag rows persist across the tag INSERT OR IGNORE. -/
theorem ensure_tag_mem (db : DB) (nm : String) :
    ∀ t ∈ db.tags, t ∈ (ensure_tag db nm).tags := by
  intro t ht
  unfold ensure_tag
  split
  · exact ht
  · simp [ht]

/-- After INSERT OR IGNORE of a name, the SELECT by that name finds an id. -/
theorem ensure_tag_find_self (db : DB) (nm : String) :
    ∃ i, find_tag_id (ensure_tag db nm).tags nm = some i := by
  unfold ensure_tag
  by_cases h : db.tags.any (fun t => t.name == nm) = true
  · obtain ⟨t, ht, hp⟩ := List.any_eq_true.mp h
    have : (db.tags.find? (fun t => t.name == nm)).isSome = true :=
      List.find?_isSome.mpr ⟨t, ht, hp⟩
    obtain ⟨t2, ht2⟩ := Option.isSome_iff_exists.mp this
    exact ⟨t2.id, by simp [h, find_tag_id, ht2]⟩
  · have hb : db.tags.any (fun t => t.name == nm) = false := by simpa using h
    have hn : db.tags.find? (fun t => t.name == nm) = none :=
      List.find?_eq_none.mpr (by simpa [List.any_eq_false] using hb)
    refine ⟨db.next_tag_id, ?_⟩
    simp [hb, find_tag_id, List.find?_append, hn, List.find?]

/-- The SELECT of a tag id by name names an actual row. -/
theorem find_tag_id_spec {tags : List Tag} {nm : String} {i : Nat}
    (h : find_tag_id tags nm = some i) :
    ∃ t ∈ tags, t.id = i ∧ t.name = nm := by
  obtain ⟨t, ht, hid⟩ := Option.map_eq_some'.mp h
  refine ⟨t, List.mem_of_find?_eq_some ht, hid, ?_⟩
  simpa using List.find?_some ht

/-- When the SELECT by name already succeeds, INSERT OR IGNORE is a no-op. -/
theorem ensure_tag_noop {db : DB} {nm : String} {i : Nat}
    (h : find_tag_id db.tags nm = some i) : ensure_tag db nm = db := by
  obtain ⟨t, ht, _, hnm⟩ := find_tag_id_spec h
  have : db.tags.any (fun t => t.name == nm) = true :=
    List.any_eq_true.mpr ⟨t, ht, by simp [hnm]⟩
  simp [ensure_tag, this]

/-- A successful SELECT by name survives an INSERT OR IGNORE of any name. -/
theorem find_tag_preserved {db : DB} {nm : String} {i : Nat} (nm2 : String)
    (h : find_tag_id db.tags nm = some i) :
    find_tag_id (ensure_tag db nm2).tags nm = some i := by
  obtain ⟨t, ht, hid⟩ := Option.map_eq_some'.mp h
  unfold ensure_tag
  split
  · exact h
  · simp only [find_tag_id, List.find?_append, ht]
    simp [Option.or, hid]

/-- The tag schema invariants are preserved by INSERT OR IGNORE. -/
theorem ensure_tag_wf {db : DB} (nm : String) (h : tags_wf db) :
    tags_wf (ensure_tag db nm) := by
  obtain ⟨hnames, hids, hnext⟩ := h
  unfold ensure_tag
  by_cases hb : db.tags.any (fun t => t.name == nm) = true
  · simpa [hb] using And.intro hnames (And.intro hids hnext)
  · have hb' : db.tags.any (fun t => t.name == nm) = false := by simpa using hb
    have hname_no : ∀ t ∈ db.tags, t.name ≠ nm := by
      intro t ht
      have := List.any_eq_false.mp hb' t ht
      simpa using this
    have h1 : nm ∉ db.tags.map Tag.name := by
      intro hmem
      obtain ⟨t, ht, hteq⟩ := List.mem_map.mp hmem
      exact hname_no t ht hteq
    have h2 : db.next_tag_id ∉ db.tags.map Tag.id := by
      intro hmem
      obtain ⟨t, ht, hteq⟩ := List.mem_map.mp hmem
      exact absurd hteq (Nat.ne_of_lt (hnext t ht))
    rw [if_neg (by simp [hb'])]
    refine ⟨?_, ?_, ?_⟩
    · rw [List.map_append]
      refine List.Nodup.append hnames (List.nodup_singleton nm) ?_
      intro a ha ha2
      simp only [List.map_cons, List.map_nil, List.mem_singleton] at ha2
      exact h1 (ha2 ▸ ha)
    · rw [List.map_append]
      refine List.Nodup.append hids (List.nodup_singleton db.next_tag_id) ?_
      intro a ha ha2
      simp only [List.map_cons, List.map_nil, List.mem_singleton] at ha2
      exact h2 (ha2 ▸ ha)
    · intro t ht
      rcases List.mem_append.mp ht with hold | hnew
      · exact Nat.lt_succ_of_lt (hnext t hold)
      · simp only [List.mem_singleton] at hnew
        rw [hnew]
        exact Nat.lt_succ_self _

/-- With distinct ids (the primary key), the SELECT of a row by its id finds
exactly that row. -/
theorem find_by_id_of_nodup {tags : List Tag} (h : (tags.map Tag.id).Nodup)
    {t : Tag} (ht : t ∈ tags) :
    tags.find? (fun x => x.id == t.id) = some t := by
  induction tags with
  | nil => cases ht
  | cons a l ih =>
    rcases List.mem_cons.mp ht with rfl | hmem
    · exact List.find?_cons_of_pos l (by simp)
    · have h2 : (∀ x ∈ l, ¬x.id = a.id) ∧ (l.map Tag.id).Nodup := by simpa using h
      have hne : a.id ≠ t.id := fun he => h2.1 t hmem he.symm
      rw [List.find?_cons_of_neg l (by simp [hne])]
      exact ih h2.2 hmem

/-- One unfolding step of the tag loop. -/
theorem aux_cons (nid : Nat) (db : DB) (nm : String) (rest : List String) :
    add_note_tags_aux nid db (nm :: rest) =
      (match find_tag_id (ensure_tag db nm).tags nm with
       | none => none
       | some tag_id =>
         add_note_tags_aux nid
           (if (ensure_tag db nm).note_tags.contains (nid, tag_id) then ensure_tag db nm
            else { ensure_tag db nm with
                   note_tags := (ensure_tag db nm).note_tags ++ [(nid, tag_id)] }) rest) :=
  rfl

/-- One unfolding step of the tag loop with the SELECT of the tag id
resolved. -/
theorem aux_cons_eq {nid : Nat} {db : DB} {nm : String} {i : Nat} (rest : List String)
    (h : find_tag_id (ensure_tag db nm).tags nm = some i) :
    add_note_tags_aux nid db (nm :: rest) =
      add_note_tags_aux nid
        (if (ensure_tag db nm).note_tags.contains (nid, i) then ensure_tag db nm
         else { ensure_tag db nm with
                note_tags := (ensure_tag db nm).note_tags ++ [(nid, i)] })
        rest := by
  rw [aux_cons, h]

/-- C7: tag attachment is idempotent.  For a note of the caller with no prior
tags, attaching the list a, a, b and then the list b returns and stores the
tag set a, b with one association row per name: exactly two association rows
for the note, resolving to the names a and b in order, with no duplicate tag
rows (UNIQUE name survives) and no duplicate association rows. -/
theorem add_note_tags_idempotent (db : DB) (u : Nat) (t : String) (n : Note)
    (hfind : db.notes.find? (fun m => m.user_id == u && m.title == t) = some n)
    (hempty : ∀ a ∈ db.note_tags, a.1 ≠ n.id)
    (hwf : tags_wf db) (hpk : db.note_tags.Nodup) :
    let r1 := add_note_tags db u t ["a", "a", "b"]
    let r2 := add_note_tags r1.2 u t ["b"]
    r2.1 = some ["a", "b"] ∧
    note_tag_names r2.2 n.id = ["a", "b"] ∧
    (r2.2.note_tags.filter (fun a => a.1 == n.id)).length = 2 ∧
    (r2.2.tags.map Tag.name).Nodup ∧
    r2.2.note_tags.Nodup := by
  intro r1 r2
  -- step 1: attach tag a
  obtain ⟨ia, hia⟩ := ensure_tag_find_self db "a"
  have hAnt : (ensure_tag db "a").note_tags = db.note_tags := ensure_tag_note_tags db "a"
  have hwfA : tags_wf (ensure_tag db "a") := ensure_tag_wf "a" hwf
  have hnomemA : ((n.id, ia) : Nat × Nat) ∉ db.note_tags := fun hmem => hempty _ hmem rfl
  have c1 : (ensure_tag db "a").note_tags.contains (n.id, ia) = false := by
    rw [hAnt]
    simpa [List.contains] using hnomemA
  set dbB : DB :=
    { ensure_tag db "a" with
      note_tags := (ensure_tag db "a").note_tags ++ [(n.id, ia)] } with hdbB
  have hBnt : dbB.note_tags = db.note_tags ++ [(n.id, ia)] := by
    show (ensure_tag db "a").note_tags ++ [(n.id, ia)] = _
    rw [hAnt]
  have e1 : add_note_tags_aux n.id db ["a", "a", "b"] =
      add_note_tags_aux n.id dbB ["a", "b"] := by
    rw [aux_cons_eq ["a", "b"] hia, if_neg (by rw [c1]; exact Bool.false_ne_true)]
  -- step 2: attaching a again is a no-op
  have hiaB : find_tag_id dbB.tags "a" = some ia := hia
  have hnoopB : ensure_tag dbB "a" = dbB := ensure_tag_noop hiaB
  have hfind2 : find_tag_id (ensure_tag dbB "a").tags "a" = some ia := by
    rw [hnoopB]; exact hiaB
  have c2 : dbB.note_tags.contains (n.id, ia) = true := by
    have : ((n.id, ia) : Nat × Nat) ∈ dbB.note_tags := by
      rw [hBnt]; simp
    simpa [List.contains] using this
  have e2 : add_note_tags_aux n.id dbB ["a", "b"] =
      add_note_tags_aux n.id dbB ["b"] := by
    rw [aux_cons_eq ["b"] hfind2, if_pos (by rw [hnoopB]; exact c2), hnoopB]
  -- step 3: attach tag b
  obtain ⟨ib, hib⟩ := ensure_tag_find_self dbB "b"
  have hwfB : tags_wf dbB := hwfA
  have hwfC : tags_wf (ensure_tag dbB "b") := ensure_tag_wf "b" hwfB
  obtain ⟨ta, hta_mem, hta_id, hta_nm⟩ := find_tag_id_spec hia
  obtain ⟨tb, htb_mem, htb_id, htb_nm⟩ := find_tag_id_spec hib
  have hta_memC : ta ∈ (ensure_tag dbB "b").tags := ensure_tag_mem dbB "b" ta hta_mem
  have hne : ia ≠ ib := by
    intro he
    have heq : ta = tb :=
      List.inj_on_of_nodup_map hwfC.2.1 hta_memC htb_mem (by rw [hta_id, htb_id, he])
    have hcontra : ("a" : String) = "b" := by rw [← hta_nm, heq, htb_nm]
    exact absurd hcontra (by decide)
  have hCnt : (ensure_tag dbB "b").note_tags = db.note_tags ++ [(n.id, ia)] := by
    rw [ensure_tag_note_tags, hBnt]
  have c3 : (ensure_tag dbB "b").note_tags.contains (n.id, ib) = false := by
    rw [hCnt]
    have : ((n.id, ib) : Nat × Nat) ∉ db.note_tags ++ [(n.id, ia)] := by
      intro hmem
      rcases List.mem_append.mp hmem with hold | hnew
      · exact hempty _ hold rfl
      · simp only [List.mem_singleton, Prod.mk.injEq] at hnew
        exact hne hnew.2.symm
    simpa [List.contains] using this
  set dbD : DB :=
    { ensure_tag dbB "b" with
      note_tags := (ensure_tag dbB "b").note_tags ++ [(n.id, ib)] } with hdbD
  have e3 : add_note_tags_aux n.id dbB ["b"] = some dbD := by
    rw [aux_cons_eq [] hib, if_neg (by rw [c3]; exact Bool.false_ne_true)]
    rfl
  -- the first call therefore produces dbD
  have haux1 : add_note_tags_aux n.id db ["a", "a", "b"] = some dbD := by
    rw [e1, e2, e3]
  have hr1 : r1 = (some (note_tag_names dbD n.id), dbD) := by
    show add_note_tags db u t ["a", "a", "b"] = _
    have hstep : add_note_tags db u t ["a", "a", "b"] =
        match add_note_tags_aux n.id db ["a", "a", "b"] with
        | none => (none, db)
        | some db1 => (some (note_tag_names db1 n.id), db1) := by
      unfold add_note_tags
      rw [hfind]
    rw [hstep, haux1]
  -- the notes table is untouched, so the second call resolves the same note
  have hDnotes : dbD.notes = db.notes := by
    show (ensure_tag dbB "b").notes = db.notes
    rw [ensure_tag_notes]
    show (ensure_tag db "a").notes = db.notes
    exact ensure_tag_notes db "a"
  have hfindD : dbD.notes.find? (fun m => m.user_id == u && m.title == t) = some n := by
    rw [hDnotes]; exact hfind
  -- the second call is a complete no-op on the state
  have hibD : find_tag_id dbD.tags "b" = some ib := hib
  have hnoopD : ensure_tag dbD "b" = dbD := ensure_tag_noop hibD
  have hfind3 : find_tag_id (ensure_tag dbD "b").tags "b" = some ib := by
    rw [hnoopD]; exact hibD
  have hDnt : dbD.note_tags = db.note_tags ++ [(n.id, ia), (n.id, ib)] := by
    show (ensure_tag dbB "b").note_tags ++ [(n.id, ib)] = _
    rw [hCnt]
    simp
  have c4 : dbD.note_tags.contains (n.id, ib) = true := by
    have : ((n.id, ib) : Nat × Nat) ∈ dbD.note_tags := by
      rw [hDnt]; simp
    simpa [List.contains] using this
  have haux2 : add_note_tags_aux n.id dbD ["b"] = some dbD := by
    rw [aux_cons_eq [] hfind3, if_pos (by rw [hnoopD]; exact c4), hnoopD]
    rfl
  have hr2 : r2 = (some (note_tag_names dbD n.id), dbD) := by
    show add_note_tags r1.2 u t ["b"] = _
    rw [hr1]
    have hstep : add_note_tags dbD u t ["b"] =
        match add_note_tags_aux n.id dbD ["b"] with
        | none => (none, dbD)
        | some db1 => (some (note_tag_names db1 n.id), db1) := by
      unfold add_note_tags
      rw [hfindD]
    rw [hstep, haux2]
  -- the final association rows for the note
  have hfilter : dbD.note_tags.filter (fun a => a.1 == n.id) = [(n.id, ia), (n.id, ib)] := by
    rw [hDnt, List.filter_append]
    have h1 : db.note_tags.filter (fun a => a.1 == n.id) = [] :=
      List.filter_eq_nil_iff.mpr (fun a ha => by simp [hempty a ha])
    rw [h1]
    simp
  -- resolve the two ids back to their names
  have hDtags : dbD.tags = (ensure_tag dbB "b").tags := rfl
  have hfa : dbD.tags.find? (fun x => x.id == ia) = some ta := by
    rw [hDtags, ← hta_id]
    exact find_by_id_of_nodup hwfC.2.1 hta_memC
  have hfb : dbD.tags.find? (fun x => x.id == ib) = some tb := by
    rw [hDtags, ← htb_id]
    exact find_by_id_of_nodup hwfC.2.1 htb_mem
  have hnames : note_tag_names dbD n.id = ["a", "b"] := by
    unfold note_tag_names
    rw [hfilter]
    simp [List.filterMap, hfa, hfb, hta_nm, htb_nm]
  refine ⟨?_, ?_, ?_, ?_, ?_⟩
  · rw [hr2, hnames]
  · show note_tag_names r2.2 n.id = ["a", "b"]
    rw [hr2]
    exact hnames
  · show (r2.2.note_tags.filter (fun a => a.1 == n.id)).length = 2
    rw [hr2]
    show (dbD.note_tags.filter (fun a => a.1 == n.id)).length = 2
    rw [hfilter]
    rfl
  · show (r2.2.tags.map Tag.name).Nodup
    rw [hr2]
    exact hwfC.1
  · show r2.2.note_tags.Nodup
    rw [hr2]
    show dbD.note_tags.Nodup
    rw [hDnt]
    refine List.Nodup.append hpk ?_ ?_
    · simp [List.nodup_cons, hne]
    · intro a ha hmem
      rcases List.mem_cons.mp hmem with rfl | hmem2
      · exact hempty _ ha rfl
      · simp only [List.mem_singleton] at hmem2
        rw [hmem2] at ha
        exact hempty _ ha rfl


/-- C7 witness: in a concrete store with one untagged note, the two attach
calls leave exactly the tag set a, b on the note, once each. -/
theorem add_note_tags_idempotent_witness :
    (add_note_tags (add_note_tags db_note_t 1 "t" ["a", "a", "b"]).2 1 "t" ["b"]).1 =
      some ["a", "b"] ∧
    note_tag_names (add_note_tags (add_note_tags db_note_t 1 "t" ["a", "a", "b"]).2 1 "t" ["b"]).2 1 =
      ["a", "b"] ∧
    ((add_note_tags (add_note_tags db_note_t 1 "t" ["a", "a", "b"]).2 1 "t" ["b"]).2.note_tags.filter
      (fun a => a.1 == 1)).length = 2 ∧
    ((add_note_tags (add_note_tags db_note_t 1 "t" ["a", "a", "b"]).2 1 "t" ["b"]).2.tags.map
      Tag.name).Nodup ∧
    (add_note_tags (add_note_tags db_note_t 1 "t" ["a", "a", "b"]).2 1 "t" ["b"]).2.note_tags.Nodup :=
  add_note_tags_idempotent db_note_t 1 "t" ⟨1, 1, "t", "c", 0, 0, none, none⟩
    (by decide) (by decide) (by exact ⟨by decide, by decide, by decide⟩) (by decide)

/-- A built node carries the data of its folder row, whatever the fuel. -/
theorem build_node_data (rows : List Folder) (fuel : Nat) (f : Folder) :
    node_data (build_node rows fuel f) = folder_data f := by
  cases fuel <;> rfl

/-- A built node carries the name of its folder row, whatever the fuel. -/
theorem build_node_name (rows : List Folder) (fuel : Nat) (f : Folder) :
    (build_node rows fuel f).name = f.name := by
  cases fuel <;> rfl

/-- Unfolding equation of the node well-formedness check. -/
theorem good_node_eq (rows : List Folder) (i : Nat) (nm : String)
    (pid : Option Nat) (cs : List FolderNode) :
    good_node rows ⟨i, nm, pid, cs⟩ =
      ((cs.map node_data ==
        (rows.filter (fun g => g.parent_id == some i)).map folder_data)
      && names_sorted cs
      && cs.attach.all (fun c => good_node rows c.1)) := by
  rw [good_node]

/-- Mapping name-sorted rows to nodes yields name-sorted siblings. -/
theorem names_sorted_map_build (rows : List Folder) {l : List Folder}
    (h : l.Pairwise folder_le) (fuel : Nat) :
    names_sorted (l.map (build_node rows fuel)) = true := by
  induction h with
  | nil => rfl
  | @cons a rest hhead htail ih =>
    cases rest with
    | nil => rfl
    | cons b rest2 =>
      show names_sorted
        (build_node rows fuel a :: build_node rows fuel b ::
          rest2.map (build_node rows fuel)) = true
      rw [names_sorted, Bool.and_eq_true]
      refine ⟨?_, ih⟩
      rw [build_node_name, build_node_name]
      exact hhead b (List.mem_cons_self b rest2)

/-- With acyclic owner rows (witnessed by a rank function decreasing towards
parents) and enough fuel, every built node is well formed: its children are
exactly its child rows in name order, recursively. -/
theorem good_build (rows : List Folder) (rank : Nat → Nat)
    (h0 : ∀ g ∈ rows, g.id ≠ 0)
    (hsort : rows.Pairwise folder_le)
    (hrank : ∀ g ∈ rows, ∀ x ∈ rows, g.parent_id = some x.id → rank x.id < rank g.id)
    (hbound : ∀ g ∈ rows, rank g.id < rows.length) :
    ∀ fuel, ∀ f ∈ rows, rows.length - rank f.id ≤ fuel →
      good_node rows (build_node rows fuel f) = true := by
  intro fuel
  induction fuel with
  | zero =>
    intro f hf hle
    exfalso
    have := hbound f hf
    omega
  | succ k ih =>
    intro f hf hle
    show good_node rows ⟨f.id, f.name, f.parent_id,
      (rows.filter (fun g => g.parent_id == some f.id && f.id != 0)).map
        (build_node rows k)⟩ = true
    have hfid : (f.id != 0) = true := by simp [h0 f hf]
    have hfilter : rows.filter (fun g => g.parent_id == some f.id && f.id != 0) =
        rows.filter (fun g => g.parent_id == some f.id) :=
      List.filter_congr (fun g _ => by rw [hfid, Bool.and_true])
    rw [good_node_eq, hfilter]
    refine (Bool.and_eq_true _ _).mpr ⟨(Bool.and_eq_true _ _).mpr ⟨?_, ?_⟩, ?_⟩
    · rw [List.map_map]
      have : node_data ∘ build_node rows k = folder_data :=
        funext (fun g => build_node_data rows k g)
      rw [this]
      simp
    · exact names_sorted_map_build rows (hsort.filter _) k
    · rw [List.all_eq_true]
      rintro ⟨c, hc⟩ _
      show good_node rows c = true
      obtain ⟨g, hgmem, hgeq⟩ := List.mem_map.mp hc
      obtain ⟨hgrows, hgcond⟩ := List.mem_filter.mp hgmem
      have hgpar : g.parent_id = some f.id := by simpa using hgcond
      have hlt : rank f.id < rank g.id := hrank g hgrows f hf hgpar
      have hgb := hbound f hf
      subst hgeq
      exact ih g hgrows (by omega)

/-- C8: `list_folders_tree` arranges the owner folders as a forest: the root
list consists of exactly the rows whose parent is null or absent from the
owner set (in ascending name order), and every node in the forest carries as
children exactly the rows whose parent points at it, in ascending name order,
recursively.  Acyclicity of the parent relation - an invariant the spec
requires - is supplied through a rank function. -/
theorem list_folders_tree_forest_spec (db : DB) (u : Nat) (rank : Nat → Nat)
    (h0 : ∀ g ∈ owner_rows db u, g.id ≠ 0)
    (hrank : ∀ g ∈ owner_rows db u, ∀ x ∈ owner_rows db u,
      g.parent_id = some x.id → rank x.id < rank g.id)
    (hbound : ∀ g ∈ owner_rows db u, rank g.id < (owner_rows db u).length) :
    (list_folders_tree db u).map node_data =
      ((owner_rows db u).filter (fun g =>
        match g.parent_id with
        | none => true
        | some p => !((owner_rows db u).map Folder.id).contains p)).map folder_data ∧
    (∀ nd ∈ list_folders_tree db u, good_node (owner_rows db u) nd = true) ∧
    names_sorted (list_folders_tree db u) = true := by
  have hsort : (owner_rows db u).Pairwise folder_le :=
    List.sorted_insertionSort folder_le _
  have hshow : list_folders_tree db u =
      ((owner_rows db u).filter
        (fun g => !attaches ((owner_rows db u).map Folder.id) g.parent_id)).map
        (build_node (owner_rows db u) (owner_rows db u).length) := rfl
  have hroots_eq : (owner_rows db u).filter
      (fun g => !attaches ((owner_rows db u).map Folder.id) g.parent_id) =
      (owner_rows db u).filter (fun g =>
        match g.parent_id with
        | none => true
        | some p => !((owner_rows db u).map Folder.id).contains p) := by
    refine List.filter_congr (fun g _ => ?_)
    cases hp : g.parent_id with
    | none => rfl
    | some p =>
      show (!(p != 0 && ((owner_rows db u).map Folder.id).contains p)) =
        (!((owner_rows db u).map Folder.id).contains p)
      cases hc : ((owner_rows db u).map Folder.id).contains p with
      | true =>
        have hpne : (p != 0) = true := by
          obtain ⟨x, hx, hxid⟩ := List.mem_map.mp (by simpa [List.contains] using hc)
          simp [← hxid, h0 x hx]
        rw [Bool.and_true, hpne]
      | false => rw [Bool.and_false]
  refine ⟨?_, ?_, ?_⟩
  · rw [hshow, hroots_eq, List.map_map]
    have : node_data ∘ build_node (owner_rows db u) (owner_rows db u).length =
        folder_data :=
      funext (fun g => build_node_data (owner_rows db u) (owner_rows db u).length g)
    rw [this]
  · intro nd hnd
    rw [hshow] at hnd
    obtain ⟨f, hfmem, hfeq⟩ := List.mem_map.mp hnd
    have hfrows : f ∈ owner_rows db u := (List.mem_filter.mp hfmem).1
    rw [← hfeq]
    exact good_build (owner_rows db u) rank h0 hsort hrank hbound
      (owner_rows db u).length f hfrows (Nat.sub_le _ _)
  · rw [hshow]
    exact names_sorted_map_build (owner_rows db u) (hsort.filter _) _

/-- C8 witness: for the concrete chain of folders A, B under A, C under B the
returned forest has exactly the root A, well-formed children at every level,
and name-sorted roots (a rank increasing with depth witnesses acyclicity). -/
theorem list_folders_tree_forest_spec_witness :
    (list_folders_tree db_folders_abc 1).map node_data =
      ((owner_rows db_folders_abc 1).filter (fun g =>
        match g.parent_id with
        | none => true
        | some p => !((owner_rows db_folders_abc 1).map Folder.id).contains p)).map
        folder_data ∧
    (∀ nd ∈ list_folders_tree db_folders_abc 1,
      good_node (owner_rows db_folders_abc 1) nd = true) ∧
    names_sorted (list_folders_tree db_folders_abc 1) = true :=
  list_folders_tree_forest_spec db_folders_abc 1 (fun i => i - 1)
    (by decide) (by decide) (by decide)

end PIM
